import Mathlib

/-!
Verification of the process-supervisor core of `minecraft-server-controller`
(package `services`, file `server_manager.go`, plus the `models.Server`
status writeback). The Go functions are embedded shallowly:

* strings handled byte-wise in Go (`stripAnsiCodes`, scanner lines) are
  modelled as `List Nat` of byte values;
* the global `runningServers` map and the persisted `models.Server` rows
  are modelled as an explicit state record with `Nat`-keyed finite maps
  represented as functions `Nat -> Option _`;
* OS interactions (pipe acquisition, process creation, exit within the
  stop timeout, websocket write failures) are oracle parameters;
* observable side effects (stdin writes, kill signals, websocket sends
  and closes, the restart sleep) are returned as an event trace.
-/

namespace Msc

/-! ## Line sanitizer (`stripAnsiCodes`, server_manager.go:405-430)

The Go loop walks the string byte by byte.  `result += string(text[i])`
converts the byte to a string through a rune conversion: for byte values
below 0x80 this is the byte itself, for 0x80..0xFF it is the two-byte
UTF-8 encoding of the code point with that value. -/

/-- Go `string(b)` for a byte `b` (0 <= b < 256): the UTF-8 encoding of the
code point `b`. One byte for ASCII, two bytes for 0x80..0xFF. -/
def goByteString (b : Nat) : List Nat :=
  if b < 128 then [b] else [0xC0 + b / 64, 0x80 + b % 64]

/-- The loop of `stripAnsiCodes`: the `Bool` is the `inEscape` flag.
The first branch mirrors the check `text[i] == 0x1B && i+1 < len(text) &&
text[i+1] == '['` (which fires even while already inside an escape) and the
`i++` that skips the bracket; the second mirrors the in-escape skip that
ends at the first `m` (byte 109); the last appends `string(text[i])`. -/
def stripAnsiAux : Bool → List Nat → List Nat
  | _, [] => []
  | _, 27 :: 91 :: rest => stripAnsiAux true rest
  | true, b :: rest =>
      if b = 109 then stripAnsiAux false rest else stripAnsiAux true rest
  | false, b :: rest => goByteString b ++ stripAnsiAux false rest

/-- `stripAnsiCodes` (server_manager.go:405): starts outside an escape. -/
def stripAnsiCodes (text : List Nat) : List Nat :=
  stripAnsiAux false text

/-- ASCII byte view of a Lean string whose characters are all below 0x80;
used to write concrete byte lines readably. -/
def ascii (s : String) : List Nat :=
  s.toList.map Char.toNat

example : stripAnsiCodes (ascii "\x1b[38;2;255;170;0mHello\x1b[0m") = ascii "Hello" := by
  decide

example : stripAnsiCodes (ascii "plain text") = ascii "plain text" := by decide

example : stripAnsiCodes (ascii "abc\x1b[31") = ascii "abc" := by decide

example : stripAnsiCodes [0xC3, 0xA9] = [0xC3, 0x83, 0xC2, 0xA9] := by decide

/-! ## Ring log buffer (append path of `readOutput`, server_manager.go:372-378)

```
sp.Logs = append(sp.Logs, line)
if len(sp.Logs) > 1000 { sp.Logs = sp.Logs[len(sp.Logs)-1000:] }
```
-/

/-- The log capacity hard-coded in `readOutput`. -/
def logCap : Nat := 1000

/-- One buffer append as performed by `readOutput`. -/
def appendLog (logs : List (List Nat)) (line : List Nat) : List (List Nat) :=
  let l := logs ++ [line]
  if l.length > logCap then l.drop (l.length - logCap) else l

theorem appendLog_eq_drop (logs : List (List Nat)) (line : List Nat) :
    appendLog logs line = (logs ++ [line]).drop (logs.length + 1 - logCap) := by
  unfold appendLog
  simp only [List.length_append, List.length_cons, List.length_nil]
  by_cases h : logs.length + 1 > logCap
  · simp [h]
  · have hz : logs.length + 1 - logCap = 0 := by omega
    simp [h, hz]

theorem foldl_appendLog (lines : List (List Nat)) :
    ∀ logs : List (List Nat), logs.length ≤ logCap →
      lines.foldl appendLog logs
        = (logs ++ lines).drop (logs.length + lines.length - logCap) := by
  induction lines with
  | nil =>
      intro logs h
      have hz : logs.length - logCap = 0 := by omega
      simp [hz]
  | cons x ls ih =>
      intro logs h
      simp only [List.foldl_cons]
      by_cases hlen : logs.length + 1 ≤ logCap
      · have hz : logs.length + 1 - logCap = 0 := by omega
        have hx : appendLog logs x = logs ++ [x] := by
          rw [appendLog_eq_drop, hz, List.drop_zero]
        have hxl : (logs ++ [x]).length ≤ logCap := by
          simp only [List.length_append, List.length_cons, List.length_nil]
          omega
        rw [hx, ih (logs ++ [x]) hxl]
        have hs : (logs ++ [x]) ++ ls = logs ++ x :: ls := by simp
        rw [hs]
        have he : (logs ++ [x]).length + ls.length - logCap
            = logs.length + (x :: ls).length - logCap := by
          simp only [List.length_append, List.length_cons, List.length_nil]
          omega
        rw [he]
      · have hcap : logs.length = logCap := by omega
        have hd1 : logs.length + 1 - logCap = 1 := by omega
        have hx : appendLog logs x = (logs ++ [x]).drop 1 := by
          rw [appendLog_eq_drop, hd1]
        have hxlen : (appendLog logs x).length = logCap := by
          rw [hx, List.length_drop]
          simp only [List.length_append, List.length_cons, List.length_nil]
          omega
        rw [ih (appendLog logs x) (le_of_eq hxlen), hxlen, hx]
        have hone : (1 : Nat) ≤ (logs ++ [x]).length := by
          simp only [List.length_append, List.length_cons, List.length_nil]
          omega
        have harith : logCap + ls.length - logCap = ls.length := by omega
        rw [harith, ← List.drop_append_of_le_length hone, List.drop_drop]
        have hX : (logs ++ [x]) ++ ls = logs ++ x :: ls := by simp
        rw [hX]
        have harith2 : logs.length + (x :: ls).length - logCap = 1 + ls.length := by
          simp only [List.length_cons]
          omega
        rw [harith2]

theorem foldl_appendLog_nil (lines : List (List Nat)) :
    lines.foldl appendLog [] = lines.drop (lines.length - logCap) := by
  have h := foldl_appendLog lines [] (by simp [logCap])
  simpa using h

theorem foldl_appendLog_length (lines : List (List Nat)) :
    (lines.foldl appendLog []).length = min lines.length logCap := by
  rw [foldl_appendLog_nil, List.length_drop]
  omega

/-! ## Subscriber registry (broadcast loop of `readOutput`, lines 380-396)

A websocket connection is modelled by its identity, the set of lines a
`WriteMessage` on it would fail for (the oracle for I/O errors), and the
trace of lines successfully delivered to it.

```
disconnectedClients := []int{}
for i, client := range sp.Clients {
    err := client.WriteMessage(websocket.TextMessage, []byte(line))
    if err != nil { disconnectedClients = append(disconnectedClients, i) }
}
for i := len(disconnectedClients) - 1; i >= 0; i-- {
    idx := disconnectedClients[i]
    sp.Clients = append(sp.Clients[:idx], sp.Clients[idx+1:]...)
}
```
-/

/-- A websocket client as `readOutput` sees it. -/
structure Conn where
  id : Nat
  failsOn : List Nat → Bool
  received : List (List Nat)

/-- A successful `WriteMessage line` on one connection. -/
def deliver (line : List Nat) (c : Conn) : Conn :=
  { c with received := c.received ++ [line] }

/-- The first loop body: the write is attempted on every client; on
success the line is delivered, on failure the client is unchanged. -/
def writeAll (line : List Nat) (clients : List Conn) : List Conn :=
  clients.map fun c => if c.failsOn line then c else deliver line c

/-- Indices collected into `disconnectedClients` by the first loop,
in ascending order, starting from index `i`. -/
def failedIdxsFrom (line : List Nat) : Nat → List Conn → List Nat
  | _, [] => []
  | i, c :: rest =>
      if c.failsOn line then i :: failedIdxsFrom line (i + 1) rest
      else failedIdxsFrom line (i + 1) rest

/-- The second loop: erase the collected indices highest-first. -/
def eraseIdxsDesc (clients : List Conn) (idxs : List Nat) : List Conn :=
  idxs.reverse.foldl List.eraseIdx clients

/-- One full broadcast of `readOutput`: attempt the write on every client,
then remove the clients whose write failed. -/
def broadcastLine (line : List Nat) (clients : List Conn) : List Conn :=
  eraseIdxsDesc (writeAll line clients) (failedIdxsFrom line 0 clients)

/-- The per-client outcome of a single broadcast. -/
def broadcastStep (line : List Nat) (c : Conn) : Option Conn :=
  if c.failsOn line then none else some (deliver line c)

theorem failedIdxsFrom_shift (line : List Nat) (l : List Conn) :
    ∀ i, failedIdxsFrom line i l = (failedIdxsFrom line 0 l).map (· + i) := by
  induction l with
  | nil => intro i; simp [failedIdxsFrom]
  | cons c rest ih =>
      intro i
      by_cases hc : c.failsOn line
      · simp only [failedIdxsFrom, if_pos hc, List.map_cons, Nat.zero_add]
        rw [ih (i + 1), ih 1, List.map_map]
        refine congrArg (List.cons i) ?_
        apply List.map_congr_left
        intro a _
        simp only [Function.comp_apply]
        omega
      · simp only [failedIdxsFrom, if_neg hc]
        rw [ih (i + 1), ih 1, List.map_map]
        apply List.map_congr_left
        intro a _
        simp only [Function.comp_apply]
        omega

theorem foldl_eraseIdx_map_succ (J : List Nat) :
    ∀ (a : Conn) (l : List Conn),
      (J.map (· + 1)).foldl List.eraseIdx (a :: l) = a :: J.foldl List.eraseIdx l := by
  induction J with
  | nil => intro a l; simp
  | cons j J ih =>
      intro a l
      simp only [List.map_cons, List.foldl_cons, List.eraseIdx_cons_succ]
      exact ih a (l.eraseIdx j)

/-- Erasing, highest index first, exactly the positions whose write
failed removes exactly the failing clients: one broadcast of `readOutput`
keeps the surviving clients in order, each with the line delivered. -/
theorem eraseIdxsDesc_writeAll (line : List Nat) (clients : List Conn) :
    broadcastLine line clients = clients.filterMap (broadcastStep line) := by
  unfold broadcastLine eraseIdxsDesc
  induction clients with
  | nil => simp [writeAll, failedIdxsFrom]
  | cons c rest ih =>
      have hw : writeAll line (c :: rest)
          = (if c.failsOn line then c else deliver line c) :: writeAll line rest := by
        simp [writeAll]
      by_cases hc : c.failsOn line
      · rw [hw, if_pos hc]
        have hf : failedIdxsFrom line 0 (c :: rest)
            = 0 :: (failedIdxsFrom line 0 rest).map (· + 1) := by
          simp only [failedIdxsFrom, if_pos hc, Nat.zero_add,
            failedIdxsFrom_shift line rest 1]
        rw [hf]
        simp only [List.reverse_cons]
        rw [List.foldl_append, ← List.map_reverse, foldl_eraseIdx_map_succ]
        simp only [List.foldl_cons, List.foldl_nil, List.eraseIdx_cons_zero]
        rw [ih]
        simp [List.filterMap_cons, broadcastStep, hc]
      · rw [hw, if_neg hc]
        have hf : failedIdxsFrom line 0 (c :: rest)
            = (failedIdxsFrom line 0 rest).map (· + 1) := by
          simp only [failedIdxsFrom, if_neg hc, Nat.zero_add,
            failedIdxsFrom_shift line rest 1]
        rw [hf, ← List.map_reverse, foldl_eraseIdx_map_succ, ih]
        simp [List.filterMap_cons, broadcastStep, hc]

/-- Processing a whole sequence of broadcasts from the point of view of a
single client: the client survives (receiving every line in order) until
the first line its transport fails on, at which point it is dropped and
receives nothing further. -/
def runConn (c : Conn) : List (List Nat) → Option Conn
  | [] => some c
  | line :: rest => if c.failsOn line then none else runConn (deliver line c) rest

theorem foldl_broadcastLine (lines : List (List Nat)) :
    ∀ clients : List Conn,
      lines.foldl (fun cs l => broadcastLine l cs) clients
        = clients.filterMap (fun c => runConn c lines) := by
  induction lines with
  | nil =>
      intro clients
      simp [runConn]
  | cons line rest ih =>
      intro clients
      simp only [List.foldl_cons]
      rw [eraseIdxsDesc_writeAll, ih, List.filterMap_filterMap]
      apply List.filterMap_congr
      intro c _
      by_cases hc : c.failsOn line
      · simp [broadcastStep, hc, runConn]
      · simp [broadcastStep, hc, runConn]

theorem runConn_never_fails (lines : List (List Nat)) :
    ∀ c : Conn, (∀ l ∈ lines, c.failsOn l = false) →
      runConn c lines = some { c with received := c.received ++ lines } := by
  induction lines with
  | nil => intro c _; simp [runConn]
  | cons line rest ih =>
      intro c h
      have hc : c.failsOn line = false := h line (by simp)
      simp only [runConn, hc, Bool.false_eq_true, if_neg, not_false_iff]
      rw [ih (deliver line c)]
      · simp [deliver]
      · intro l hl
        exact h l (by simp [hl])

/-! ## The supervised unit (`models.Server`) and its status writeback -/

/-- `models.Server`: the persisted unit descriptor.  `startedAt` is the
optional start timestamp (`StartedAt *time.Time`), time modelled as `Nat`. -/
structure Server where
  id : Nat
  name : String
  folderPath : String
  startupCommand : String
  status : String
  startedAt : Option Nat
deriving DecidableEq

/-- `Server.SetStatus` (models/server.go): sets the status, and sets the
start timestamp to the current time exactly when the new status is
`online`, clearing it otherwise.  The database save always succeeds in
this model. -/
def Server.SetStatus (s : Server) (now : Nat) (status : String) : Server :=
  { s with
    status := status,
    startedAt := if status = "online" then some now else none }

/-! ## `strings.Fields` on the startup command -/

/-- Go `unicode.IsSpace` restricted to the Latin-1 range, which covers
every byte a startup command line can contain in this code path. -/
def isGoSpace (c : Char) : Bool :=
  c == '\t' || c == '\n' || c == '\x0B' || c == '\x0C' || c == '\r' ||
  c == ' ' || c == '\x85' || c == '\xA0'

/-- Accumulator pass splitting a character list around whitespace runs. -/
def fieldsAux : List Char → List Char → List (List Char)
  | acc, [] => if acc.isEmpty then [] else [acc.reverse]
  | acc, c :: rest =>
      if isGoSpace c then
        if acc.isEmpty then fieldsAux [] rest else acc.reverse :: fieldsAux [] rest
      else fieldsAux (c :: acc) rest

/-- `strings.Fields`: the whitespace-separated fields of a string. -/
def goFields (s : String) : List (List Char) :=
  fieldsAux [] s.toList

example : goFields "java -jar server.jar" =
    ["java".toList, "-jar".toList, "server.jar".toList] := by decide

example : goFields "   " = [] := by decide

example : goFields "" = [] := by decide

/-! ## Supervisor state

The global `runningServers` map (keyed by `server.ID`) and the persisted
`Server` rows, as one state record.  Maps are functions `Nat → Option _`. -/

/-- `ServerProcess` (server_manager.go:22): one process handle.  `hasStdin`
models `Stdin != nil`; the OS process reference and the two output stream
handles have no observable state beyond the oracles that drive them. -/
structure ServerProcess where
  server : Server
  hasStdin : Bool
  logs : List (List Nat)
  clients : List Conn

/-- The supervisor state: `runningServers` plus the unit store the
status writebacks land in. -/
structure MState where
  runningServers : Nat → Option ServerProcess
  servers : Nat → Option Server

/-- Point update of a `Nat`-keyed map. -/
def upd {α : Type} (f : Nat → Option α) (k : Nat) (v : Option α) : Nat → Option α :=
  fun i => if i = k then v else f i

theorem upd_same {α : Type} (f : Nat → Option α) (k : Nat) (v : Option α) :
    upd f k v k = v := by simp [upd]

theorem upd_other {α : Type} (f : Nat → Option α) (k i : Nat) (v : Option α) :
    i ≠ k → upd f k v i = f i := by
  intro h
  simp [upd, h]

/-- The supervisor error taxonomy (the Go code returns these as error
strings / wrapped errors, in this order of checks). -/
inductive SupErr where
  | alreadyRunning
  | invalidCommand
  | streamSetupFailed
  | launchFailed
  | notRunning
  | stdinUnavailable
  | writeFailed
deriving DecidableEq

/-- Observable side effects of one supervisor operation, in order. -/
inductive Event where
  | stdinWrite (data : String)
  | kill
  | sleep (seconds : Nat)
  | sendClient (id : Nat) (msg : String)
  | closeClient (id : Nat)
deriving DecidableEq

/-- Result of one supervisor operation: the returned error (if any), the
state after, the final value of the handle the operation worked on (if
any), and the emitted events. -/
structure OpResult where
  err : Option SupErr
  state : MState
  finalProc : Option ServerProcess
  events : List Event

/-- Oracle for the launch path: whether each of the three pipe
acquisitions and `cmd.Start()` succeed. -/
structure LaunchEnv where
  stdinPipeOk : Bool
  stdoutPipeOk : Bool
  stderrPipeOk : Bool
  startOk : Bool

/-- Oracle for the stop path: whether the process exits within `n`
seconds of the shutdown request. -/
structure StopEnv where
  exitWithin : Nat → Bool

/-- The fixed graceful-stop timeout (server_manager.go:143). -/
def stopTimeoutSeconds : Nat := 30

/-- The fixed restart settling delay (server_manager.go:179). -/
def restartDelaySeconds : Nat := 2

/-- The handle `StartServer` registers: stdin acquired, empty log
buffer, empty client list. -/
def newProcess (srv : Server) : ServerProcess :=
  { server := srv, hasStdin := true, logs := [], clients := [] }

/-- `StartServer` (server_manager.go:48-113).  Checks in source order:
duplicate handle, empty command-line field list, the three pipes, process
creation.  On success the handle is inserted and the status set to
`online`, atomically (the Go code holds `serverMux` throughout). -/
def StartServer (env : LaunchEnv) (now : Nat) (srv : Server) (st : MState) : OpResult :=
  if (st.runningServers srv.id).isSome then
    { err := some .alreadyRunning, state := st, finalProc := none, events := [] }
  else if (goFields srv.startupCommand).isEmpty then
    { err := some .invalidCommand, state := st, finalProc := none, events := [] }
  else if !env.stdinPipeOk then
    { err := some .streamSetupFailed, state := st, finalProc := none, events := [] }
  else if !env.stdoutPipeOk then
    { err := some .streamSetupFailed, state := st, finalProc := none, events := [] }
  else if !env.stderrPipeOk then
    { err := some .streamSetupFailed, state := st, finalProc := none, events := [] }
  else if !env.startOk then
    { err := some .launchFailed, state := st, finalProc := none, events := [] }
  else
    { err := none,
      state :=
        { runningServers := upd st.runningServers srv.id (some (newProcess srv)),
          servers := upd st.servers srv.id (some (srv.SetStatus now "online")) },
      finalProc := some (newProcess srv),
      events := [] }

/-- The final line `StopServer` writes to every websocket client. -/
def stopMessage : String := "\n=== Server stopped ===\n"

/-- `StopServer` (server_manager.go:116-165).  `NotRunning` when no handle
exists; otherwise writes the shutdown commands (when stdin is present),
races the exit wait against the 30-second timeout, force-kills on
timeout, removes the handle, flips the status to `offline`, then sends
every client a final message, closes it, and clears the client list.
Both the graceful and the forced path return success. -/
def StopServer (env : StopEnv) (now : Nat) (srv : Server) (st : MState) : OpResult :=
  match st.runningServers srv.id with
  | none => { err := some .notRunning, state := st, finalProc := none, events := [] }
  | some sp =>
      { err := none,
        state :=
          { runningServers := upd st.runningServers srv.id none,
            servers := upd st.servers srv.id (some (srv.SetStatus now "offline")) },
        finalProc := some { sp with clients := [] },
        events :=
          (if sp.hasStdin then [Event.stdinWrite "stop\n", Event.stdinWrite "end\n"] else [])
            ++ (if env.exitWithin stopTimeoutSeconds then [] else [Event.kill])
            ++ (sp.clients.map fun c =>
                  [Event.sendClient c.id stopMessage, Event.closeClient c.id]).flatten }

/-- `RestartServer` (server_manager.go:168-183): stop, and if stop says
the server is not running, degrade to a plain start; otherwise sleep the
settling delay and start. -/
def RestartServer (envStop : StopEnv) (envStart : LaunchEnv) (nowStop nowStart : Nat)
    (srv : Server) (st : MState) : OpResult :=
  let r1 := StopServer envStop nowStop srv st
  match r1.err with
  | some e => if e = SupErr.notRunning then StartServer envStart nowStart srv st else r1
  | none =>
      let r2 := StartServer envStart nowStart srv r1.state
      { r2 with events := r1.events ++ [Event.sleep restartDelaySeconds] ++ r2.events }

/-- `SendCommand` (server_manager.go:186-206): `NotRunning` without a
handle, `StdinUnavailable` without an input stream, `WriteFailed` when
the write errors (oracle `writeOk`); otherwise writes the command plus a
newline.  Never touches the state. -/
def SendCommand (writeOk : Bool) (srv : Server) (command : String) (st : MState) : OpResult :=
  match st.runningServers srv.id with
  | none => { err := some .notRunning, state := st, finalProc := none, events := [] }
  | some sp =>
      if !sp.hasStdin then
        { err := some .stdinUnavailable, state := st, finalProc := some sp, events := [] }
      else if !writeOk then
        { err := some .writeFailed, state := st, finalProc := some sp,
          events := [Event.stdinWrite (command ++ "\n")] }
      else
        { err := none, state := st, finalProc := some sp,
          events := [Event.stdinWrite (command ++ "\n")] }

/-- `GetLogs` (server_manager.go:209-225): the empty list without a
handle, otherwise a copy of the log buffer.  Total by type: no error. -/
def GetLogs (srv : Server) (st : MState) : List (List Nat) :=
  match st.runningServers srv.id with
  | none => []
  | some sp => sp.logs

/-- `IsServerRunning` (server_manager.go:464-470). -/
def IsServerRunning (srv : Server) (st : MState) : Bool :=
  (st.runningServers srv.id).isSome

/-- The final line `monitorProcess` writes, naming the exit code. -/
def serverStoppedMsg (exitCode : Int) : String :=
  "\n=== Server stopped (exit code: " ++ toString exitCode ++ ") ===\n"

/-- `monitorProcess` (server_manager.go:433-461), the exit-waiter: after
the OS confirms termination with `exitCode`, remove the unit from
`runningServers`, flip its status to `offline` (clearing the start
timestamp), send every client a final line naming the exit code, close
each client, and clear the client list. -/
def monitorProcess (now : Nat) (exitCode : Int) (sp : ServerProcess) (st : MState) : OpResult :=
  { err := none,
    state :=
      { runningServers := upd st.runningServers sp.server.id none,
        servers := upd st.servers sp.server.id (some (sp.server.SetStatus now "offline")) },
    finalProc := some { sp with clients := [] },
    events :=
      (sp.clients.map fun c =>
        [Event.sendClient c.id (serverStoppedMsg exitCode), Event.closeClient c.id]).flatten }

/-- One iteration of the `readOutput` loop (server_manager.go:363-402):
sanitize the scanned line, append it to the ring buffer, broadcast it to
the clients evicting the ones whose write fails. -/
def readOutputStep (sp : ServerProcess) (rawLine : List Nat) : ServerProcess :=
  let line := stripAnsiCodes rawLine
  { sp with
    logs := appendLog sp.logs line,
    clients := broadcastLine line sp.clients }

/-- `readOutput` over a whole stream of scanned lines. -/
def readOutput (sp : ServerProcess) (rawLines : List (List Nat)) : ServerProcess :=
  rawLines.foldl readOutputStep sp

/-! ## The status/handle invariant and the supervisor step relation -/

/-- The data-model invariant: a stored unit is `online` exactly when a
handle for its identifier is registered, and its start timestamp is set
exactly when it is `online`. -/
def Inv (st : MState) : Prop :=
  ∀ id srv, st.servers id = some srv →
    ((srv.status = "online") ↔ (st.runningServers id).isSome = true) ∧
    (srv.startedAt.isSome = true ↔ srv.status = "online")

/-- Inserting a handle while saving the unit as `online` preserves the
invariant (the success path of `StartServer`). -/
theorem Inv_insert_online (st : MState) (srv : Server) (now : Nat) :
    Inv st →
    Inv { runningServers := upd st.runningServers srv.id (some (newProcess srv)),
          servers := upd st.servers srv.id (some (srv.SetStatus now "online")) } := by
  intro h id rec hrec
  dsimp only at hrec ⊢
  by_cases hid : id = srv.id
  · subst hid
    rw [upd_same] at hrec
    injection hrec with hrec
    subst hrec
    refine ⟨?_, ?_⟩
    · simp [upd_same, Server.SetStatus]
    · simp [Server.SetStatus]
  · rw [upd_other _ _ _ _ hid] at hrec
    rw [upd_other _ _ _ _ hid]
    exact h id rec hrec

/-- Removing the handle at a key while saving that unit as `offline`
preserves the invariant (the cleanup of `StopServer`/`monitorProcess`). -/
theorem Inv_remove_offline (st : MState) (k : Nat) (s0 : Server) (now : Nat) :
    Inv st →
    Inv { runningServers := upd st.runningServers k none,
          servers := upd st.servers k (some (s0.SetStatus now "offline")) } := by
  intro h id rec hrec
  dsimp only at hrec ⊢
  by_cases hid : id = k
  · subst hid
    rw [upd_same] at hrec
    injection hrec with hrec
    subst hrec
    refine ⟨?_, ?_⟩
    · simp [upd_same, Server.SetStatus]
    · simp [Server.SetStatus]
  · rw [upd_other _ _ _ _ hid] at hrec
    rw [upd_other _ _ _ _ hid]
    exact h id rec hrec

theorem StartServer_state_cases (env : LaunchEnv) (now : Nat) (srv : Server) (st : MState) :
    (StartServer env now srv st).state = st ∨
    (StartServer env now srv st).state
      = { runningServers := upd st.runningServers srv.id (some (newProcess srv)),
          servers := upd st.servers srv.id (some (srv.SetStatus now "online")) } := by
  unfold StartServer
  split_ifs <;> simp

theorem StartServer_preserves_Inv (env : LaunchEnv) (now : Nat) (srv : Server) (st : MState) :
    Inv st → Inv (StartServer env now srv st).state := by
  intro h
  rcases StartServer_state_cases env now srv st with hc | hc <;> rw [hc]
  · exact h
  · exact Inv_insert_online st srv now h

theorem StopServer_state_cases (env : StopEnv) (now : Nat) (srv : Server) (st : MState) :
    (StopServer env now srv st).state = st ∨
    (StopServer env now srv st).state
      = { runningServers := upd st.runningServers srv.id none,
          servers := upd st.servers srv.id (some (srv.SetStatus now "offline")) } := by
  unfold StopServer
  cases st.runningServers srv.id <;> simp

theorem StopServer_preserves_Inv (env : StopEnv) (now : Nat) (srv : Server) (st : MState) :
    Inv st → Inv (StopServer env now srv st).state := by
  intro h
  rcases StopServer_state_cases env now srv st with hc | hc <;> rw [hc]
  · exact h
  · exact Inv_remove_offline st srv.id srv now h

theorem SendCommand_state_eq (writeOk : Bool) (srv : Server) (command : String) (st : MState) :
    (SendCommand writeOk srv command st).state = st := by
  unfold SendCommand
  cases st.runningServers srv.id with
  | none => rfl
  | some sp => by_cases h1 : sp.hasStdin <;> by_cases h2 : writeOk <;> simp [h1, h2]

theorem monitorProcess_preserves_Inv (now : Nat) (exitCode : Int) (sp : ServerProcess)
    (st : MState) : Inv st → Inv (monitorProcess now exitCode sp st).state := by
  intro h
  exact Inv_remove_offline st sp.server.id sp.server now h

theorem RestartServer_preserves_Inv (envStop : StopEnv) (envStart : LaunchEnv)
    (nowStop nowStart : Nat) (srv : Server) (st : MState) :
    Inv st → Inv (RestartServer envStop envStart nowStop nowStart srv st).state := by
  intro h
  unfold RestartServer
  dsimp only
  cases he : (StopServer envStop nowStop srv st).err with
  | none =>
      dsimp only
      have h1 := StopServer_preserves_Inv envStop nowStop srv st h
      exact StartServer_preserves_Inv envStart nowStart srv _ h1
  | some e =>
      dsimp only
      by_cases hne : e = SupErr.notRunning
      · rw [if_pos hne]
        exact StartServer_preserves_Inv envStart nowStart srv st h
      · rw [if_neg hne]
        exact StopServer_preserves_Inv envStop nowStop srv st h

/-- One completed supervisor operation, as a relation on states. -/
inductive Step : MState → MState → Prop where
  | start (env : LaunchEnv) (now : Nat) (srv : Server) (st : MState) :
      Step st (StartServer env now srv st).state
  | stop (env : StopEnv) (now : Nat) (srv : Server) (st : MState) :
      Step st (StopServer env now srv st).state
  | restart (envStop : StopEnv) (envStart : LaunchEnv) (nowStop nowStart : Nat)
      (srv : Server) (st : MState) :
      Step st (RestartServer envStop envStart nowStop nowStart srv st).state
  | send (writeOk : Bool) (srv : Server) (command : String) (st : MState) :
      Step st (SendCommand writeOk srv command st).state
  | monitor (now : Nat) (exitCode : Int) (sp : ServerProcess) (st : MState) :
      Step st (monitorProcess now exitCode sp st).state

/-- The state at process startup: no handles, no stored units. -/
def initState : MState :=
  { runningServers := fun _ => none, servers := fun _ => none }

/-- States reachable from startup through completed operations. -/
inductive Reachable : MState → Prop where
  | init : Reachable initState
  | step {st st' : MState} : Reachable st → Step st st' → Reachable st'

theorem Step_preserves_Inv {st st' : MState} (h : Inv st) (hs : Step st st') : Inv st' := by
  cases hs with
  | start env now srv st => exact StartServer_preserves_Inv env now srv st h
  | stop env now srv st => exact StopServer_preserves_Inv env now srv st h
  | restart envStop envStart nowStop nowStart srv st =>
      exact RestartServer_preserves_Inv envStop envStart nowStop nowStart srv st h
  | send writeOk srv command st =>
      rw [SendCommand_state_eq]
      exact h
  | monitor now exitCode sp st => exact monitorProcess_preserves_Inv now exitCode sp st h

theorem Inv_initState : Inv initState := by
  intro id srv h
  simp [initState] at h

theorem Reachable_Inv {st : MState} (h : Reachable st) : Inv st := by
  induction h with
  | init => exact Inv_initState
  | step _ hs ih => exact Step_preserves_Inv ih hs

/-! ## Projection lemmas for the `readOutput` loop -/

theorem readOutput_logs (rawLines : List (List Nat)) :
    ∀ sp : ServerProcess,
      (readOutput sp rawLines).logs
        = (rawLines.map stripAnsiCodes).foldl appendLog sp.logs := by
  induction rawLines with
  | nil => intro sp; simp [readOutput]
  | cons r rest ih =>
      intro sp
      simp only [readOutput, List.foldl_cons, List.map_cons]
      exact ih (readOutputStep sp r)

theorem readOutput_clients (rawLines : List (List Nat)) :
    ∀ sp : ServerProcess,
      (readOutput sp rawLines).clients
        = (rawLines.map stripAnsiCodes).foldl (fun cs l => broadcastLine l cs) sp.clients := by
  induction rawLines with
  | nil => intro sp; simp [readOutput]
  | cons r rest ih =>
      intro sp
      simp only [readOutput, List.foldl_cons, List.map_cons]
      exact ih (readOutputStep sp r)

/-! ## Concrete smoke tests of the supervisor model -/

/-- A concrete unit used by the examples below. -/
def srvEx : Server :=
  { id := 1, name := "mc", folderPath := "/srv/mc",
    startupCommand := "java -jar server.jar", status := "offline", startedAt := none }

/-- A launch oracle where every OS interaction succeeds. -/
def envOk : LaunchEnv :=
  { stdinPipeOk := true, stdoutPipeOk := true, stderrPipeOk := true, startOk := true }

/-- A stop oracle where the process exits within any wait. -/
def stopOk : StopEnv := { exitWithin := fun _ => true }

example : (StartServer envOk 5 srvEx initState).err = none := by decide

example : (StartServer envOk 7 srvEx (StartServer envOk 5 srvEx initState).state).err
    = some SupErr.alreadyRunning := by decide

example : (StopServer stopOk 9 srvEx initState).err = some SupErr.notRunning := by decide

example : (StopServer stopOk 9 srvEx (StartServer envOk 5 srvEx initState).state).err
    = none := by decide

example : ((StartServer envOk 5 srvEx initState).state.servers 1).map Server.status
    = some "online" := by decide

example :
    ((StopServer stopOk 9 srvEx (StartServer envOk 5 srvEx initState).state).state.servers 1).map
      Server.status = some "offline" := by decide

example : (SendCommand true srvEx "say hi" (StartServer envOk 5 srvEx initState).state).events
    = [Event.stdinWrite "say hi\n"] := by decide

example : GetLogs srvEx initState = [] := by decide

example : Inv (StartServer envOk 5 srvEx initState).state :=
  StartServer_preserves_Inv envOk 5 srvEx initState Inv_initState

example : Reachable (StartServer envOk 5 srvEx initState).state :=
  Reachable.step Reachable.init (Step.start envOk 5 srvEx initState)

/-! ## Claim theorems -/

/-- C1: `StartServer` fails with `AlreadyRunning` exactly when a handle
for the identifier is registered; with `InvalidCommand` exactly when no
handle exists and the startup command has zero whitespace-separated
fields; with `StreamSetupFailed` exactly when, additionally, one of the
three pipes cannot be acquired; with `LaunchFailed` exactly when the
pipes succeed and process creation fails.  Every failure leaves the
state (hence the running-server table) unchanged; success registers the
fresh handle and saves the unit as `online`, after which a second start
on the same unit yields `AlreadyRunning`. -/
theorem startServer_contract (env : LaunchEnv) (now : Nat) (srv : Server) (st : MState) :
    ((StartServer env now srv st).err = some SupErr.alreadyRunning ↔
      (st.runningServers srv.id).isSome = true) ∧
    ((StartServer env now srv st).err = some SupErr.invalidCommand ↔
      (st.runningServers srv.id).isSome = false ∧
      (goFields srv.startupCommand).isEmpty = true) ∧
    ((StartServer env now srv st).err = some SupErr.streamSetupFailed ↔
      (st.runningServers srv.id).isSome = false ∧
      (goFields srv.startupCommand).isEmpty = false ∧
      (env.stdinPipeOk = false ∨ env.stdoutPipeOk = false ∨ env.stderrPipeOk = false)) ∧
    ((StartServer env now srv st).err = some SupErr.launchFailed ↔
      (st.runningServers srv.id).isSome = false ∧
      (goFields srv.startupCommand).isEmpty = false ∧
      env.stdinPipeOk = true ∧ env.stdoutPipeOk = true ∧ env.stderrPipeOk = true ∧
      env.startOk = false) ∧
    ((StartServer env now srv st).err.isSome = true →
      (StartServer env now srv st).state = st) ∧
    ((StartServer env now srv st).err = none →
      (StartServer env now srv st).state.runningServers srv.id = some (newProcess srv) ∧
      (StartServer env now srv st).state.servers srv.id = some (srv.SetStatus now "online") ∧
      (srv.SetStatus now "online").status = "online" ∧
      ∀ (env2 : LaunchEnv) (now2 : Nat),
        (StartServer env2 now2 srv (StartServer env now srv st).state).err
          = some SupErr.alreadyRunning) := by
  cases hr : (st.runningServers srv.id).isSome with
  | true => simp [StartServer, hr]
  | false =>
    cases hf : (goFields srv.startupCommand).isEmpty with
    | true => simp [StartServer, hr, hf]
    | false =>
      cases hsi : env.stdinPipeOk with
      | false => simp [StartServer, hr, hf, hsi]
      | true =>
        cases hso : env.stdoutPipeOk with
        | false => simp [StartServer, hr, hf, hsi, hso]
        | true =>
          cases hse : env.stderrPipeOk with
          | false => simp [StartServer, hr, hf, hsi, hso, hse]
          | true =>
            cases hst : env.startOk with
            | false => simp [StartServer, hr, hf, hsi, hso, hse, hst]
            | true =>
                simp [StartServer, hr, hf, hsi, hso, hse, hst, upd_same, Server.SetStatus]

/-- C2: starting from the empty buffer a fresh handle carries, appending
a sequence of N lines through the reader path leaves the buffer holding
exactly the last min(N, 1000) sanitized lines in their original order,
and `GetLogs` on the running unit returns exactly that suffix. -/
theorem ringLog_contract (srv : Server) (rawLines : List (List Nat)) :
    (readOutput (newProcess srv) rawLines).logs
      = (rawLines.map stripAnsiCodes).drop (rawLines.length - logCap) ∧
    (readOutput (newProcess srv) rawLines).logs.length = min rawLines.length logCap ∧
    (∀ st : MState, st.runningServers srv.id = some (readOutput (newProcess srv) rawLines) →
      GetLogs srv st = (rawLines.map stripAnsiCodes).drop (rawLines.length - logCap)) := by
  have hlogs : (readOutput (newProcess srv) rawLines).logs
      = (rawLines.map stripAnsiCodes).drop (rawLines.length - logCap) := by
    rw [readOutput_logs]
    have : (newProcess srv).logs = [] := rfl
    rw [this, foldl_appendLog_nil, List.length_map]
  refine ⟨hlogs, ?_, ?_⟩
  · rw [hlogs, List.length_drop, List.length_map]
    omega
  · intro st hst
    unfold GetLogs
    rw [hst, ← hlogs]

/-- C3: the sanitizer does remove `ESC [ ... m` sequences, swallows an
unterminated trailing escape, and maps the documented example to
`Hello`; but because `result += string(text[i])` re-encodes each kept
byte at or above 0x80 as the UTF-8 bytes of the code point with that
value, an input with no escape sequences is not always returned
unchanged: the two bytes 0xC3 0xA9 come back as 0xC3 0x83 0xC2 0xA9. -/
theorem stripAnsiCodes_mangles_high_bytes :
    stripAnsiCodes (ascii "\x1b[38;2;255;170;0mHello\x1b[0m") = ascii "Hello" ∧
    stripAnsiCodes (ascii "plain text") = ascii "plain text" ∧
    stripAnsiCodes (ascii "abc\x1b[31") = ascii "abc" ∧
    stripAnsiCodes [0xC3, 0xA9] = [0xC3, 0x83, 0xC2, 0xA9] ∧
    stripAnsiCodes [0xC3, 0xA9] ≠ [0xC3, 0xA9] := by
  refine ⟨by decide, by decide, by decide, by decide, by decide⟩

/-- C4: `StopServer` yields `NotRunning` exactly when no handle is
registered, changing nothing; with a handle it returns success whether
the process exits within the 30-second window or has to be killed, the
kill happening exactly on timeout; afterwards the handle is gone, the
unit is saved `offline` with its timestamp cleared, the shutdown
commands were written when stdin was available, every subscriber got the
final stop message and a close, and the subscriber list is empty. -/
theorem stopServer_contract (env : StopEnv) (now : Nat) (srv : Server) (st : MState) :
    ((StopServer env now srv st).err = some SupErr.notRunning ↔
      st.runningServers srv.id = none) ∧
    (st.runningServers srv.id = none →
      (StopServer env now srv st).state = st ∧ (StopServer env now srv st).events = []) ∧
    (∀ sp, st.runningServers srv.id = some sp →
      (StopServer env now srv st).err = none ∧
      (StopServer env now srv st).state.runningServers srv.id = none ∧
      (StopServer env now srv st).state.servers srv.id = some (srv.SetStatus now "offline") ∧
      (srv.SetStatus now "offline").status = "offline" ∧
      (srv.SetStatus now "offline").startedAt = none ∧
      (StopServer env now srv st).finalProc = some { sp with clients := [] } ∧
      (sp.hasStdin = true →
        Event.stdinWrite "stop\n" ∈ (StopServer env now srv st).events ∧
        Event.stdinWrite "end\n" ∈ (StopServer env now srv st).events) ∧
      (Event.kill ∈ (StopServer env now srv st).events ↔
        env.exitWithin stopTimeoutSeconds = false) ∧
      (∀ c ∈ sp.clients,
        Event.sendClient c.id stopMessage ∈ (StopServer env now srv st).events ∧
        Event.closeClient c.id ∈ (StopServer env now srv st).events)) := by
  cases h : st.runningServers srv.id with
  | none => simp [StopServer, h]
  | some sp0 =>
      have hkill : Event.kill ∈ (StopServer env now srv st).events ↔
          env.exitWithin stopTimeoutSeconds = false := by
        simp only [StopServer, h]
        cases hstdin : sp0.hasStdin <;>
          cases hexit : env.exitWithin stopTimeoutSeconds <;>
            simp [List.mem_flatten, List.mem_map, hstdin, hexit]
      have hclients : ∀ c ∈ sp0.clients,
          Event.sendClient c.id stopMessage ∈ (StopServer env now srv st).events ∧
          Event.closeClient c.id ∈ (StopServer env now srv st).events := by
        intro c hc
        have hm : [Event.sendClient c.id stopMessage, Event.closeClient c.id]
            ∈ sp0.clients.map
              (fun c => [Event.sendClient c.id stopMessage, Event.closeClient c.id]) :=
          List.mem_map_of_mem _ hc
        constructor <;>
        · simp only [StopServer, h]
          refine List.mem_append.mpr (Or.inr ?_)
          refine List.mem_flatten.mpr ⟨_, hm, ?_⟩
          simp
      have hwrites : sp0.hasStdin = true →
          Event.stdinWrite "stop\n" ∈ (StopServer env now srv st).events ∧
          Event.stdinWrite "end\n" ∈ (StopServer env now srv st).events := by
        intro hs
        simp only [StopServer, h]
        constructor <;> simp [hs]
      refine ⟨by simp [StopServer, h], by simp [h], ?_⟩
      intro sp hsp
      injection hsp with hsp
      subst hsp
      refine ⟨by simp [StopServer, h], by simp [StopServer, h, upd_same],
        by simp [StopServer, h, upd_same], by simp [Server.SetStatus],
        by simp [Server.SetStatus], by simp [StopServer, h], hwrites, hkill, hclients⟩

/-- C5: the exit-waiter, on any process termination, removes the unit
from the running-server table, saves it `offline` with the start
timestamp cleared, sends every attached subscriber a final line naming
the recorded exit code (the decimal rendering of the code is a substring
of the message), closes each subscriber, and empties the subscriber
list; a unit started successfully and whose process then exits with
code 1 goes `offline` to `online` to `offline` and is absent from the
running set afterwards. -/
theorem monitorProcess_contract (now : Nat) (exitCode : Int) (sp : ServerProcess) (st : MState) :
    ((monitorProcess now exitCode sp st).state.runningServers sp.server.id = none) ∧
    ((monitorProcess now exitCode sp st).state.servers sp.server.id
      = some (sp.server.SetStatus now "offline")) ∧
    ((sp.server.SetStatus now "offline").status = "offline") ∧
    ((sp.server.SetStatus now "offline").startedAt = none) ∧
    ((monitorProcess now exitCode sp st).finalProc = some { sp with clients := [] }) ∧
    (∀ c ∈ sp.clients,
      Event.sendClient c.id (serverStoppedMsg exitCode)
          ∈ (monitorProcess now exitCode sp st).events ∧
      Event.closeClient c.id ∈ (monitorProcess now exitCode sp st).events) ∧
    ((toString exitCode).toList <:+: (serverStoppedMsg exitCode).toList) ∧
    (∀ (env : LaunchEnv) (n1 n2 : Nat) (srv : Server) (st0 : MState),
      srv.status = "offline" →
      st0.runningServers srv.id = none →
      (goFields srv.startupCommand).isEmpty = false →
      env.stdinPipeOk = true → env.stdoutPipeOk = true → env.stderrPipeOk = true →
      env.startOk = true →
      (StartServer env n1 srv st0).err = none ∧
      (StartServer env n1 srv st0).state.servers srv.id = some (srv.SetStatus n1 "online") ∧
      (srv.SetStatus n1 "online").status = "online" ∧
      (∀ sp2 : ServerProcess, sp2.server = srv →
        (monitorProcess n2 1 sp2 (StartServer env n1 srv st0).state).state.servers srv.id
          = some (srv.SetStatus n2 "offline") ∧
        (srv.SetStatus n2 "offline").status = "offline" ∧
        (monitorProcess n2 1 sp2 (StartServer env n1 srv st0).state).state.runningServers srv.id
          = none ∧
        (∀ c ∈ sp2.clients,
          Event.sendClient c.id (serverStoppedMsg 1)
            ∈ (monitorProcess n2 1 sp2 (StartServer env n1 srv st0).state).events))) := by
  have hmem : ∀ (n : Nat) (code : Int) (sp2 : ServerProcess) (st2 : MState),
      ∀ c ∈ sp2.clients,
        Event.sendClient c.id (serverStoppedMsg code)
            ∈ (monitorProcess n code sp2 st2).events ∧
        Event.closeClient c.id ∈ (monitorProcess n code sp2 st2).events := by
    intro n code sp2 st2 c hc
    have hm : [Event.sendClient c.id (serverStoppedMsg code), Event.closeClient c.id]
        ∈ sp2.clients.map
          (fun c => [Event.sendClient c.id (serverStoppedMsg code), Event.closeClient c.id]) :=
      List.mem_map_of_mem _ hc
    constructor <;>
    · simp only [monitorProcess]
      refine List.mem_flatten.mpr ⟨_, hm, ?_⟩
      simp
  refine ⟨by simp [monitorProcess, upd_same], by simp [monitorProcess, upd_same],
    by simp [Server.SetStatus], by simp [Server.SetStatus],
    by simp [monitorProcess], hmem now exitCode sp st, ?_, ?_⟩
  · have ht : (serverStoppedMsg exitCode).toList
        = "\n=== Server stopped (exit code: ".toList
          ++ (toString exitCode).toList ++ ") ===\n".toList := by
      simp [serverStoppedMsg, String.toList, String.data_append]
    rw [ht]
    exact List.infix_append _ _ _
  · intro env n1 n2 srv st0 hoff hnone hf hsi hso hse hstart
    have hS : StartServer env n1 srv st0
        = { err := none,
            state :=
              { runningServers := upd st0.runningServers srv.id (some (newProcess srv)),
                servers := upd st0.servers srv.id (some (srv.SetStatus n1 "online")) },
            finalProc := some (newProcess srv), events := [] } := by
      simp [StartServer, hnone, hf, hsi, hso, hse, hstart]
    refine ⟨by rw [hS], by rw [hS]; exact upd_same _ _ _, by simp [Server.SetStatus], ?_⟩
    intro sp2 hsp2
    refine ⟨?_, by simp [Server.SetStatus], ?_, ?_⟩
    · simp only [monitorProcess, hsp2]
      exact upd_same _ _ _
    · simp only [monitorProcess, hsp2]
      exact upd_same _ _ _
    · intro c hc
      exact (hmem n2 1 sp2 (StartServer env n1 srv st0).state c hc).1

/-- C6: every completed supervisor operation preserves the invariant
that a stored unit is `online` exactly when a handle for its identifier
is registered, with the start timestamp set exactly when `online`; hence
the invariant holds in every reachable state, where `IsServerRunning`
agrees with the stored status. -/
theorem status_handle_invariant :
    (∀ st st' : MState, Inv st → Step st st' → Inv st') ∧
    (∀ st : MState, Reachable st → Inv st) ∧
    (∀ (st : MState) (srv rec : Server), Inv st → st.servers srv.id = some rec →
      (IsServerRunning srv st = true ↔ rec.status = "online")) ∧
    (∀ (st : MState) (id : Nat) (rec : Server), Inv st → st.servers id = some rec →
      (rec.startedAt.isSome = true ↔ rec.status = "online")) := by
  refine ⟨fun st st' h hs => Step_preserves_Inv h hs,
    fun st h => Reachable_Inv h, ?_, ?_⟩
  · intro st srv rec h hrec
    unfold IsServerRunning
    exact ((h srv.id rec hrec).1).symm
  · intro st id rec h hrec
    exact (h id rec hrec).2

/-- C7: one broadcast delivers the line exactly once to every attached
subscriber whose transport accepts it, removes exactly the subscribers
whose write failed (keeping the rest in order), and returns no error;
iterated over a stream, a subscriber that never fails stays attached and
receives every line broadcast after its attachment, in order. -/
theorem broadcast_fault_isolation :
    (∀ (line : List Nat) (clients : List Conn),
      broadcastLine line clients = clients.filterMap (broadcastStep line)) ∧
    (∀ (line : List Nat) (clients : List Conn) (c : Conn),
      c ∈ clients → c.failsOn line = false →
      deliver line c ∈ broadcastLine line clients) ∧
    (∀ (sp : ServerProcess) (raw : List Nat),
      (readOutputStep sp raw).clients = broadcastLine (stripAnsiCodes raw) sp.clients) ∧
    (∀ (lines : List (List Nat)) (clients : List Conn) (c : Conn),
      c ∈ clients → (∀ l ∈ lines, c.failsOn l = false) →
      { c with received := c.received ++ lines }
        ∈ lines.foldl (fun cs l => broadcastLine l cs) clients) := by
  refine ⟨fun line clients => eraseIdxsDesc_writeAll line clients, ?_, ?_, ?_⟩
  · intro line clients c hc hf
    rw [eraseIdxsDesc_writeAll]
    exact List.mem_filterMap.mpr ⟨c, hc, by simp [broadcastStep, hf]⟩
  · intro sp raw
    rfl
  · intro lines clients c hc hf
    rw [foldl_broadcastLine]
    exact List.mem_filterMap.mpr ⟨c, hc, runConn_never_fails lines c hf⟩

/-- C8: on a unit with no registered handle, restart is exactly a plain
start (same result, same state, same events), and in particular succeeds
when the start path succeeds; on a running unit it is stop, a fixed
2-second settling sleep, then start, with the start result (including
any error) passed through. -/
theorem restart_degrades_to_start (envStop : StopEnv) (envStart : LaunchEnv)
    (nowStop nowStart : Nat) (srv : Server) (st : MState) :
    (st.runningServers srv.id = none →
      RestartServer envStop envStart nowStop nowStart srv st
        = StartServer envStart nowStart srv st) ∧
    (st.runningServers srv.id = none → (goFields srv.startupCommand).isEmpty = false →
      envStart.stdinPipeOk = true → envStart.stdoutPipeOk = true →
      envStart.stderrPipeOk = true → envStart.startOk = true →
      (RestartServer envStop envStart nowStop nowStart srv st).err = none) ∧
    (∀ sp, st.runningServers srv.id = some sp →
      (RestartServer envStop envStart nowStop nowStart srv st).err
        = (StartServer envStart nowStart srv (StopServer envStop nowStop srv st).state).err ∧
      (RestartServer envStop envStart nowStop nowStart srv st).state
        = (StartServer envStart nowStart srv (StopServer envStop nowStop srv st).state).state ∧
      (RestartServer envStop envStart nowStop nowStart srv st).events
        = (StopServer envStop nowStop srv st).events
            ++ [Event.sleep restartDelaySeconds]
            ++ (StartServer envStart nowStart srv (StopServer envStop nowStop srv st).state).events) := by
  refine ⟨?_, ?_, ?_⟩
  · intro h
    simp [RestartServer, StopServer, h]
  · intro h hf hsi hso hse hstart
    have h1 : RestartServer envStop envStart nowStop nowStart srv st
        = StartServer envStart nowStart srv st := by
      simp [RestartServer, StopServer, h]
    rw [h1]
    simp [StartServer, h, hf, hsi, hso, hse, hstart]
  · intro sp h
    have herr : (StopServer envStop nowStop srv st).err = none := by
      simp [StopServer, h]
    simp [RestartServer, herr]

/-- C9: `SendCommand` yields `NotRunning` exactly when no handle exists,
`StdinUnavailable` exactly when a handle exists without an input stream,
`WriteFailed` exactly when the write on the acquired input stream
errors; on success exactly the command followed by one newline is
written, and the state is never changed. -/
theorem sendCommand_contract (writeOk : Bool) (srv : Server) (command : String) (st : MState) :
    ((SendCommand writeOk srv command st).err = some SupErr.notRunning ↔
      st.runningServers srv.id = none) ∧
    ((SendCommand writeOk srv command st).err = some SupErr.stdinUnavailable ↔
      ∃ sp, st.runningServers srv.id = some sp ∧ sp.hasStdin = false) ∧
    ((SendCommand writeOk srv command st).err = some SupErr.writeFailed ↔
      (∃ sp, st.runningServers srv.id = some sp ∧ sp.hasStdin = true) ∧ writeOk = false) ∧
    ((SendCommand writeOk srv command st).err = none ↔
      (∃ sp, st.runningServers srv.id = some sp ∧ sp.hasStdin = true) ∧ writeOk = true) ∧
    ((SendCommand writeOk srv command st).err = none →
      (SendCommand writeOk srv command st).events = [Event.stdinWrite (command ++ "\n")]) ∧
    (SendCommand writeOk srv command st).state = st := by
  cases h : st.runningServers srv.id with
  | none => simp [SendCommand, h]
  | some sp =>
      cases hs : sp.hasStdin <;> cases hw : writeOk <;> simp [SendCommand, h, hs, hw]

/-- C10: `GetLogs` is total and error-free by type: it returns the empty
list for a unit with no registered handle and the buffer contents for a
running one; the returned list is a value independent of the live
buffer, which subsequent reader appends advance without affecting any
earlier snapshot. -/
theorem getLogs_total (srv : Server) (st : MState) :
    (st.runningServers srv.id = none → GetLogs srv st = []) ∧
    (∀ sp, st.runningServers srv.id = some sp → GetLogs srv st = sp.logs) ∧
    (∀ sp rawLines, st.runningServers srv.id = some sp →
      GetLogs srv
          { runningServers := upd st.runningServers srv.id (some (readOutput sp rawLines)),
            servers := st.servers }
        = (rawLines.map stripAnsiCodes).foldl appendLog sp.logs) := by
  refine ⟨?_, ?_, ?_⟩
  · intro h
    simp [GetLogs, h]
  · intro sp h
    simp [GetLogs, h]
  · intro sp rawLines h
    simp [GetLogs, upd_same, readOutput_logs]

end Msc
